import Mathlib

/-!
# raft-lite client protocol: shallow embedding of `client/actions.go`

The client talks to a Raft-style cluster through blocking RPCs.  We embed the
client core as a state machine: `ClientCore` carries the fields of the Go
struct that the protocol reads and writes (`leaderID`, `backOffDuration`,
`clientID`, `nl`), and the network is modelled as a trace of environment
replies (`Ev`), one per RPC the client issues, consumed in order.  Each event
carries the reply to the RPC (`none` = transport error).  For a leader-request
RPC the event also records which cluster member the random pick selected,
since `utils.Random` is an external source of nondeterminism.

Unbounded `for` loops of the Go code become fuel-indexed recursion returning
`Option`: `none` means the fuel ran out or the trace does not supply a reply
of the kind the next RPC expects; `some` is a completed execution.

External collaborators that do not influence the protocol's control flow
(the logrus logger, the TCP node handles, the wall clock of `time.Sleep`) are
dropped; sleeps are recorded in a ghost `sleeps` list and the send/poll
history in a ghost `steps` list so that theorems can speak about them.
-/

namespace RaftLite

/-- `rpccore.NodeID`: an opaque string-like identity. -/
abbrev NodeID := String

/-- `sm.TSMRequestInfo`: the cluster's record of the latest request executed
for a client: its RequestID and an optional error message. -/
structure TSMRequestInfo where
  RequestID : String
  Err : Option String
  deriving Repr, DecidableEq

/-- `sm.TSMAction`, reduced to the one field the client reads via
`GetRequestID`. -/
structure TSMAction where
  RequestID : String
  deriving Repr, DecidableEq

/-- `act.GetRequestID()` -/
def TSMAction.GetRequestID (a : TSMAction) : String := a.RequestID

/-- `ActionReq{Cmd: act}` -/
structure ActionReq where
  Cmd : TSMAction
  deriving Repr, DecidableEq

/-- `LeaderRes`: reply to `RPCMethodLeaderRequest`. -/
structure LeaderRes where
  HasLeader : Bool
  LeaderID : NodeID
  deriving Repr, DecidableEq

/-- `ActionRes`: reply to `RPCMethodActionRequest`. -/
structure ActionRes where
  Started : Bool
  deriving Repr, DecidableEq

/-- The dynamically-typed payload `QueryRes.Data` (`interface \x7b\x7d` in Go):
either a `TSMRequestInfo` (what the latest-request query returns) or some
other value (what a data query returns). -/
inductive QueryData where
  | reqInfo (info : TSMRequestInfo)
  | raw (v : Int)
  deriving Repr, DecidableEq

/-- `QueryRes`: reply to `RPCMethodQueryRequest`. -/
structure QueryRes where
  Success : Bool
  Data : QueryData
  QueryErr : Option String
  deriving Repr, DecidableEq

/-- One environment reply to the next RPC the client issues.  `none` inside a
constructor is a transport error (`callRPC` returned a non-nil error).  A
`leaderEv` additionally records the member that `utils.Random` picked. -/
inductive Ev where
  | leaderEv (pick : NodeID) (res : Option LeaderRes)
  | actionEv (res : Option ActionRes)
  | queryEv (res : Option QueryRes)
  deriving Repr, DecidableEq

/-- The fields of Go's `ClientCore` that the protocol reads or writes.
The logger and the rpc node handle are I/O collaborators with no influence
on control flow and are omitted. -/
structure ClientCore where
  clientID : String
  leaderID : Option NodeID
  nl : List NodeID
  backOffDuration : Nat
  deriving Repr, DecidableEq

/-- `maxBackOffDuration = 1600` (ms) -/
def maxBackOffDuration : Nat := 1600

/-- `initBackOffDuration = 20` (ms) -/
def initBackOffDuration : Nat := 20

/-- `maxCheckCountBeforeRetry = 6` -/
def maxCheckCountBeforeRetry : Nat := 6

/-- `NewClientCore` (logger and node handle omitted). -/
def NewClientCore (clientID : String) (nodeIDs : List NodeID) : ClientCore :=
  { clientID := clientID
    leaderID := none
    nl := nodeIDs
    backOffDuration := initBackOffDuration }

/-- Ghost record of one protocol step: an `ActionRequest` send (with whether
the leader accepted it) or one confirmation poll (with whether it produced a
`RequestInfo` matching the submitted command). -/
inductive Step where
  | sent (req : ActionReq) (ok : Bool)
  | polled (matched : Bool)
  deriving Repr, DecidableEq

/-- A world: the client core, the remaining environment trace, and ghost
logs of the sleeps performed and the send/poll steps taken. `leaderRPCs`
counts leader-discovery RPCs issued. -/
structure W where
  core : ClientCore
  evs : List Ev
  sleeps : List Nat
  steps : List Step
  leaderRPCs : Nat
  deriving Repr, DecidableEq

/-- `resetBackOffDuration(core)`: `core.backOffDuration = initBackOffDuration`. -/
def resetBackOffDuration (core : ClientCore) : ClientCore :=
  { core with backOffDuration := initBackOffDuration }

/-- The `ClientCore` mutation of `logErrAndBackoff`: clear the leader cache
and double the backoff capped at the ceiling
(`utils.Min(maxBackOffDuration, core.backOffDuration*2)`). -/
def coreBackoff (core : ClientCore) : ClientCore :=
  { core with
    leaderID := none
    backOffDuration := min maxBackOffDuration (core.backOffDuration * 2) }

/-- `logErrAndBackoff`: clears `leaderID`, sleeps for the current
`backOffDuration` (recorded in the ghost `sleeps` log), then doubles the
backoff capped at the ceiling. -/
def logErrAndBackoff (w : W) : W :=
  { w with
    core := coreBackoff w.core
    sleeps := w.sleeps ++ [w.core.backOffDuration] }

/-- `lookForLeader`: if a leader is cached return it at once; otherwise loop,
asking the member the random pick selected for the leader.  On a reply that
names a leader: cache it, reset the backoff, return it.  On a transport error
or a leaderless reply: back off and retry. -/
def lookForLeader : Nat → W → Option (NodeID × W)
  | 0, _ => none
  | fuel + 1, w =>
    match w.core.leaderID with
    | some l => some (l, w)
    | none =>
      match w.evs with
      | Ev.leaderEv _pick res :: rest =>
        let w1 : W := { w with evs := rest, leaderRPCs := w.leaderRPCs + 1 }
        match res with
        | some lr =>
          if lr.HasLeader then
            let core1 := resetBackOffDuration
              { w1.core with leaderID := some lr.LeaderID }
            some (lr.LeaderID, { w1 with core := core1 })
          else
            lookForLeader fuel (logErrAndBackoff w1)
        | none => lookForLeader fuel (logErrAndBackoff w1)
      | _ => none

/-- `sendActionRequest`: find the leader, send the `ActionRequest`; the
result `Bool` is whether an error occurred (transport error, or the node
declined with `Started = false`).  The ghost `steps` log records the send. -/
def sendActionRequest (fuel : Nat) (actReq : ActionReq) (w : W) :
    Option (Bool × W) :=
  match lookForLeader fuel w with
  | none => none
  | some (_leader, w1) =>
    match w1.evs with
    | Ev.actionEv res :: rest =>
      let w2 : W := { w1 with evs := rest }
      match res with
      | some ar =>
        some (!ar.Started,
          { w2 with steps := w2.steps ++ [Step.sent actReq ar.Started] })
      | none =>
        some (true, { w2 with steps := w2.steps ++ [Step.sent actReq false] })
    | _ => none

/-- Result of `checkActionRequest`: `panicked` models the failed type
assertion `queryRes.Data.(sm.TSMRequestInfo)`; otherwise `ok info err` is
the Go pair `(*sm.TSMRequestInfo, error)` with `err` as a Boolean. -/
inductive CheckRes where
  | panicked
  | ok (info : Option TSMRequestInfo) (err : Bool)
  deriving Repr, DecidableEq

/-- `checkActionRequest`: find the leader, issue the latest-request query.
On success with no query error the payload is asserted to be a
`TSMRequestInfo` (panicking otherwise); on success with a query error,
return `(nil, nil)`; on decline or transport error, return an error. -/
def checkActionRequest (fuel : Nat) (w : W) : Option (CheckRes × W) :=
  match lookForLeader fuel w with
  | none => none
  | some (_leader, w1) =>
    match w1.evs with
    | Ev.queryEv res :: rest =>
      let w2 : W := { w1 with evs := rest }
      match res with
      | some qr =>
        if qr.Success then
          match qr.QueryErr with
          | none =>
            match qr.Data with
            | QueryData.reqInfo info => some (CheckRes.ok (some info) false, w2)
            | _ => some (CheckRes.panicked, w2)
          | some _ => some (CheckRes.ok none false, w2)
        else some (CheckRes.ok none true, w2)
      | none => some (CheckRes.ok none true, w2)
    | _ => none

/-- Result of the confirmation poll loop inside `ExecuteActionRequest`. -/
inductive InnerRes where
  | found (applied : Bool) (msg : String)
  | noMatch
  | panicked
  deriving Repr, DecidableEq

/-- The poll loop `for i := 0; i < maxCheckCountBeforeRetry; i++` of
`ExecuteActionRequest`, indexed by the number `r` of iterations that remain.
Each iteration: one `checkActionRequest`; on an RPC error, back off; on a
`RequestInfo` whose `RequestID` matches, reset the backoff and return the
definitive outcome; otherwise back off (`info is nil or wrong request ID`)
and continue.  Every iteration appends one ghost `polled` step. -/
def innerCheck (fuel : Nat) (reqID : String) : Nat → W → Option (InnerRes × W)
  | 0, w => some (InnerRes.noMatch, w)
  | r + 1, w =>
    match checkActionRequest fuel w with
    | none => none
    | some (CheckRes.panicked, w1) => some (InnerRes.panicked, w1)
    | some (CheckRes.ok info err, w1) =>
      let w2 := if err then logErrAndBackoff w1 else w1
      match info with
      | some i =>
        if i.RequestID = reqID then
          let w3 : W := { w2 with
            core := resetBackOffDuration w2.core
            steps := w2.steps ++ [Step.polled true] }
          match i.Err with
          | some e => some (InnerRes.found false e, w3)
          | none => some (InnerRes.found true "action success", w3)
        else
          let w3 := if err then w2 else logErrAndBackoff w2
          innerCheck fuel reqID r
            { w3 with steps := w3.steps ++ [Step.polled false] }
      | none =>
        let w3 := if err then w2 else logErrAndBackoff w2
        innerCheck fuel reqID r
          { w3 with steps := w3.steps ++ [Step.polled false] }

/-- Result of `ExecuteActionRequest`: the Go `(bool, string)` pair, or a
propagated panic from `checkActionRequest`. -/
inductive ExecResult where
  | done (success : Bool) (msg : String)
  | panicked
  deriving Repr, DecidableEq

/-- `ExecuteActionRequest`: loop — send the action; on a send error back off
and restart; on an accepted send reset the backoff and poll up to
`maxCheckCountBeforeRetry` times for a matching `RequestInfo`; if the polls
are exhausted without a match, resend the identical `ActionReq`.  The second
`Nat` is the fuel of the outer `for` loop. -/
def ExecuteActionRequest (fuel : Nat) : Nat → TSMAction → W →
    Option (ExecResult × W)
  | 0, _, _ => none
  | n + 1, act, w =>
    match sendActionRequest fuel (ActionReq.mk act) w with
    | none => none
    | some (err, w1) =>
      if err then
        ExecuteActionRequest fuel n act (logErrAndBackoff w1)
      else
        let w2 : W := { w1 with core := resetBackOffDuration w1.core }
        match innerCheck fuel act.GetRequestID maxCheckCountBeforeRetry w2 with
        | none => none
        | some (InnerRes.panicked, w3) => some (ExecResult.panicked, w3)
        | some (InnerRes.found b msg, w3) => some (ExecResult.done b msg, w3)
        | some (InnerRes.noMatch, w3) => ExecuteActionRequest fuel n act w3

/-- `ExecuteQueryRequest`: loop — find the leader, send the query.  On
success, reset the backoff and return `(Data, nil)`, or `(nil, QueryErr)`
when the successful response carries a query-level error.  On decline or
transport error, back off and retry.  The result pair is Go's
`(interface \x7b\x7d, error)`. -/
def ExecuteQueryRequest (fuel : Nat) : Nat → W →
    Option ((Option QueryData × Option String) × W)
  | 0, _ => none
  | n + 1, w =>
    match lookForLeader fuel w with
    | none => none
    | some (_leader, w1) =>
      match w1.evs with
      | Ev.queryEv res :: rest =>
        let w2 : W := { w1 with evs := rest }
        match res with
        | some qr =>
          if qr.Success then
            let w3 : W := { w2 with core := resetBackOffDuration w2.core }
            match qr.QueryErr with
            | none => some ((some qr.Data, none), w3)
            | some e => some ((none, some e), w3)
          else ExecuteQueryRequest fuel n (logErrAndBackoff w2)
        | none => ExecuteQueryRequest fuel n (logErrAndBackoff w2)
      | _ => none

/-- The strings a single environment reply can contribute to a result:
query-level error messages and `RequestInfo` error messages.  Transport
errors (`none` replies) contribute nothing. -/
def evDomainErrs : Ev → List String
  | Ev.queryEv (some qr) =>
    (match qr.QueryErr with
     | some e => [e]
     | none => []) ++
    (match qr.Data with
     | QueryData.reqInfo info =>
       (match info.Err with
        | some e => [e]
        | none => [])
     | _ => [])
  | _ => []

/-- All domain-level error strings occurring in an environment trace. -/
def traceDomainErrs : List Ev → List String
  | [] => []
  | ev :: rest => evDomainErrs ev ++ traceDomainErrs rest

/-- A reply is well typed when every successful, error-free query response
carries a payload of type `TSMRequestInfo` — the precondition under which
the type assertion in `checkActionRequest` cannot panic. -/
def evWellTyped : Ev → Bool
  | Ev.queryEv (some qr) =>
    if qr.Success then
      match qr.QueryErr with
      | none =>
        match qr.Data with
        | QueryData.reqInfo _ => true
        | _ => false
      | some _ => true
    else true
  | _ => true

/-- The shape of the ghost step log of a completed `ExecuteActionRequest`
run for the request `req`: any number of rounds, each either a declined or
transport-failed send with no polls, or an accepted send followed by exactly
`maxCheckCountBeforeRetry` unmatched polls; the last round is an accepted
send followed by fewer than `maxCheckCountBeforeRetry` unmatched polls and
one matching poll.  Every send in the log carries the identical `req`. -/
inductive RunLog (req : ActionReq) : List Step → Prop where
  | final (k : Nat) : k < maxCheckCountBeforeRetry →
      RunLog req (Step.sent req true ::
        (List.replicate k (Step.polled false) ++ [Step.polled true]))
  | failSend (l : List Step) : RunLog req l →
      RunLog req (Step.sent req false :: l)
  | exhaust (l : List Step) : RunLog req l →
      RunLog req (Step.sent req true ::
        (List.replicate maxCheckCountBeforeRetry (Step.polled false) ++ l))

/-- The `ClientCore` states reachable from construction by the two backoff
operations: `resetBackOffDuration` (any successful RPC) and the mutation of
`logErrAndBackoff` (any failed RPC). -/
inductive ReachableCore : ClientCore → Prop where
  | init (clientID : String) (nodeIDs : List NodeID) :
      ReachableCore (NewClientCore clientID nodeIDs)
  | reset (c : ClientCore) : ReachableCore c →
      ReachableCore (resetBackOffDuration c)
  | fail (c : ClientCore) : ReachableCore c →
      ReachableCore (coreBackoff c)

/-! ## Concrete inputs used by witnesses and counterexamples -/

/-- A core with the leader `n1` cached and the backoff at the floor. -/
def coreCached : ClientCore :=
  { clientID := "c1"
    leaderID := some "n1"
    nl := ["n1", "n2", "n3"]
    backOffDuration := initBackOffDuration }

/-- A sample action with RequestID `r1`. -/
def actR1 : TSMAction := { RequestID := "r1" }

/-- A matching confirmation: `RequestInfo` for `r1` with no error. -/
def qrMatchOK : QueryRes :=
  { Success := true
    Data := QueryData.reqInfo { RequestID := "r1", Err := none }
    QueryErr := none }

/-- A matching confirmation whose `RequestInfo.Err` is set. -/
def qrMatchErr : QueryRes :=
  { Success := true
    Data := QueryData.reqInfo { RequestID := "r1", Err := some "insufficient funds" }
    QueryErr := none }

/-- A successful poll reply with no request info on record (query error). -/
def qrNoInfo : QueryRes :=
  { Success := true
    Data := QueryData.raw 0
    QueryErr := some "no existing request info" }

/-- A successful query reply carrying a domain error. -/
def qrKeyMissing : QueryRes :=
  { Success := true
    Data := QueryData.raw 0
    QueryErr := some "key not found" }

/-- A successful, error-free query reply whose payload is not a
`TSMRequestInfo`. -/
def qrBadData : QueryRes :=
  { Success := true
    Data := QueryData.raw 42
    QueryErr := none }

/-- A leader reply naming `n1`. -/
def evLeaderN1 : Ev :=
  Ev.leaderEv "n2" (some { HasLeader := true, LeaderID := "n1" })

/-- An accepted action send reply. -/
def evActionOK : Ev := Ev.actionEv (some { Started := true })

/-- Build a world from a core and a trace with empty ghost logs. -/
def mkW (core : ClientCore) (evs : List Ev) : W :=
  { core := core, evs := evs, sleeps := [], steps := [], leaderRPCs := 0 }

/-- Trace for the C1 witness: an accepted send, six unmatched polls (the
five rediscoveries forced by the cleared cache interleaved), a resend of the
identical command, and a matching poll. -/
def evsExhaust : List Ev :=
  [evActionOK, Ev.queryEv (some qrNoInfo),
   evLeaderN1, Ev.queryEv (some qrNoInfo),
   evLeaderN1, Ev.queryEv (some qrNoInfo),
   evLeaderN1, Ev.queryEv (some qrNoInfo),
   evLeaderN1, Ev.queryEv (some qrNoInfo),
   evLeaderN1, Ev.queryEv (some qrNoInfo),
   evLeaderN1, evActionOK, Ev.queryEv (some qrMatchOK)]

/-- Trace for the C4 counterexample: accepted send, successful-but-unmatched
poll, transport error while rediscovering the leader, recovery, matching
poll. -/
def evsSleep40 : List Ev :=
  [evActionOK, Ev.queryEv (some qrNoInfo),
   Ev.leaderEv "n3" none, evLeaderN1, Ev.queryEv (some qrMatchOK)]

/-- `n` consecutive failed-RPC backoff steps applied to a core. -/
def coreAfterFails (c : ClientCore) : Nat → ClientCore
  | 0 => c
  | n + 1 => coreBackoff (coreAfterFails c n)

/-- A reply that is neither a transport error nor a decline nor a
leaderless answer: the environment cooperates fully. -/
def evNoFailure : Ev → Bool
  | Ev.leaderEv _ (some lr) => lr.HasLeader
  | Ev.actionEv (some ar) => ar.Started
  | Ev.queryEv (some qr) => qr.Success
  | _ => false

/-- Final world of `ExecuteActionRequest 5 3 actR1 (mkW coreCached evsExhaust)`. -/
def wExhaustFinal : W :=
  { core := { clientID := "c1", leaderID := some "n1", nl := ["n1", "n2", "n3"],
              backOffDuration := 20 }
    evs := []
    sleeps := [20, 20, 20, 20, 20, 20]
    steps := [Step.sent (ActionReq.mk actR1) true,
              Step.polled false, Step.polled false, Step.polled false,
              Step.polled false, Step.polled false, Step.polled false,
              Step.sent (ActionReq.mk actR1) true, Step.polled true]
    leaderRPCs := 6 }

/-- Final world of `ExecuteActionRequest 5 3 actR1 (mkW coreCached evsSleep40)`. -/
def wSleep40Final : W :=
  { core := { clientID := "c1", leaderID := some "n1", nl := ["n1", "n2", "n3"],
              backOffDuration := 20 }
    evs := []
    sleeps := [20, 40]
    steps := [Step.sent (ActionReq.mk actR1) true, Step.polled false,
              Step.polled true]
    leaderRPCs := 2 }

/-- World after one successful-but-unmatched poll from `coreCached`. -/
def wNoInfoFinal : W :=
  { core := { clientID := "c1", leaderID := none, nl := ["n1", "n2", "n3"],
              backOffDuration := 40 }
    evs := []
    sleeps := [20]
    steps := [Step.polled false]
    leaderRPCs := 0 }

/-! ## Frame and step lemmas -/

/-- With a cached leader, `lookForLeader` returns it at once: same world,
no event consumed, no discovery RPC issued. -/
theorem lookForLeader_cached (fuel : Nat) (w : W) (l : NodeID)
    (h : w.core.leaderID = some l) :
    lookForLeader (fuel + 1) w = some (l, w) := by
  simp [lookForLeader, h]

/-- `lookForLeader` returns only with that leader cached. -/
theorem lookForLeader_leaderSet (fuel : Nat) :
    ∀ (w : W) (l : NodeID) (w1 : W),
      lookForLeader fuel w = some (l, w1) → w1.core.leaderID = some l := by
  induction fuel with
  | zero => intro w l w1 h; simp [lookForLeader] at h
  | succ n ih =>
    intro w l w1 h
    rw [lookForLeader] at h
    cases hL : w.core.leaderID with
    | some l0 =>
      rw [hL] at h
      simp only [Option.some.injEq, Prod.mk.injEq] at h
      obtain ⟨h1, h2⟩ := h
      rw [← h2, hL, h1]
    | none =>
      rw [hL] at h
      cases hE : w.evs with
      | nil => rw [hE] at h; simp at h
      | cons ev rest =>
        rw [hE] at h
        cases ev with
        | leaderEv pick res =>
          cases res with
          | none => exact ih _ _ _ h
          | some lr =>
            by_cases hHL : lr.HasLeader
            · simp only [hHL, if_true] at h
              simp only [Option.some.injEq, Prod.mk.injEq] at h
              obtain ⟨h1, h2⟩ := h
              rw [← h2, h1]
              rfl
            · simp only [hHL, if_false] at h
              exact ih _ _ _ h
        | actionEv res => simp at h
        | queryEv res => simp at h

/-- `lookForLeader` leaves the ghost step log alone and only consumes
events: the remaining trace is a suffix of the original. -/
theorem lookForLeader_frame (fuel : Nat) :
    ∀ (w : W) (l : NodeID) (w1 : W),
      lookForLeader fuel w = some (l, w1) →
      w1.evs <:+ w.evs ∧ w1.steps = w.steps := by
  induction fuel with
  | zero => intro w l w1 h; simp [lookForLeader] at h
  | succ n ih =>
    intro w l w1 h
    rw [lookForLeader] at h
    cases hL : w.core.leaderID with
    | some l0 =>
      rw [hL] at h
      simp only [Option.some.injEq, Prod.mk.injEq] at h
      rw [← h.2]
      exact ⟨List.suffix_refl _, rfl⟩
    | none =>
      rw [hL] at h
      cases hE : w.evs with
      | nil => rw [hE] at h; simp at h
      | cons ev rest =>
        rw [hE] at h
        cases ev with
        | leaderEv pick res =>
          cases res with
          | none =>
            obtain ⟨hs, hst⟩ := ih _ _ _ h
            refine ⟨hs.trans ?_, hst⟩
            exact List.suffix_cons _ _
          | some lr =>
            by_cases hHL : lr.HasLeader
            · simp only [hHL, if_true] at h
              simp only [Option.some.injEq, Prod.mk.injEq] at h
              rw [← h.2]
              exact ⟨List.suffix_cons _ _, rfl⟩
            · simp only [hHL, if_false] at h
              obtain ⟨hs, hst⟩ := ih _ _ _ h
              refine ⟨hs.trans ?_, hst⟩
              exact List.suffix_cons _ _
        | actionEv res => simp at h
        | queryEv res => simp at h

/-- `traceDomainErrs` distributes over append. -/
theorem traceDomainErrs_append (l1 l2 : List Ev) :
    traceDomainErrs (l1 ++ l2) = traceDomainErrs l1 ++ traceDomainErrs l2 := by
  induction l1 with
  | nil => simp [traceDomainErrs]
  | cons ev rest ih => simp [traceDomainErrs, ih]

/-- Membership in the domain errors of a suffix lifts to the whole trace. -/
theorem traceDomainErrs_suffix (l1 l2 : List Ev) (h : l1 <:+ l2) (s : String)
    (hs : s ∈ traceDomainErrs l1) : s ∈ traceDomainErrs l2 := by
  obtain ⟨t, ht⟩ := h
  rw [← ht, traceDomainErrs_append]
  exact List.mem_append_right _ hs

/-- `List.all evWellTyped` restricts to suffixes. -/
theorem wellTyped_suffix (l1 l2 : List Ev) (h : l1 <:+ l2)
    (hw : l2.all evWellTyped = true) : l1.all evWellTyped = true := by
  obtain ⟨t, ht⟩ := h
  rw [← ht, List.all_append] at hw
  exact (Bool.and_eq_true_iff.mp hw).2

/-- `sendActionRequest` appends exactly one ghost `sent` step, recording the
request it sent and whether the send was accepted (`ok = !err`), and only
consumes events. -/
theorem sendActionRequest_frame (fuel : Nat) (actReq : ActionReq) (w : W)
    (err : Bool) (w1 : W)
    (h : sendActionRequest fuel actReq w = some (err, w1)) :
    w1.steps = w.steps ++ [Step.sent actReq (!err)] ∧ w1.evs <:+ w.evs := by
  rw [sendActionRequest] at h
  cases hLk : lookForLeader fuel w with
  | none => rw [hLk] at h; simp at h
  | some p =>
    obtain ⟨l, wl⟩ := p
    rw [hLk] at h
    dsimp only at h
    obtain ⟨hsuf, hst⟩ := lookForLeader_frame fuel w l wl hLk
    cases hE : wl.evs with
    | nil => rw [hE] at h; simp at h
    | cons ev rest =>
      rw [hE] at h
      have hrest : rest <:+ w.evs := by
        refine List.IsSuffix.trans ?_ hsuf
        rw [hE]
        exact List.suffix_cons _ _
      cases ev with
      | leaderEv pick res => simp at h
      | queryEv res => simp at h
      | actionEv res =>
        cases res with
        | none =>
          simp only [Option.some.injEq, Prod.mk.injEq] at h
          obtain ⟨h1, h2⟩ := h
          rw [← h2]
          subst h1
          refine ⟨?_, hrest⟩
          simp [hst]
        | some ar =>
          simp only [Option.some.injEq, Prod.mk.injEq] at h
          obtain ⟨h1, h2⟩ := h
          rw [← h2]
          subst h1
          simp only [Bool.not_not]
          exact ⟨by rw [hst], hrest⟩

/-- `checkActionRequest` leaves the ghost step log alone, only consumes
events, and any `RequestInfo` error string it returns occurs among the
domain errors of the input trace. -/
theorem checkActionRequest_frame (fuel : Nat) (w : W) (c : CheckRes) (w1 : W)
    (h : checkActionRequest fuel w = some (c, w1)) :
    w1.steps = w.steps ∧ w1.evs <:+ w.evs ∧
    (∀ info e b, c = CheckRes.ok (some info) b → info.Err = some e →
      e ∈ traceDomainErrs w.evs) := by
  rw [checkActionRequest] at h
  cases hLk : lookForLeader fuel w with
  | none => rw [hLk] at h; simp at h
  | some p =>
    obtain ⟨l, wl⟩ := p
    rw [hLk] at h
    dsimp only at h
    obtain ⟨hsuf, hst⟩ := lookForLeader_frame fuel w l wl hLk
    cases hE : wl.evs with
    | nil => rw [hE] at h; simp at h
    | cons ev rest =>
      rw [hE] at h
      have hevsuf : ev :: rest <:+ w.evs := by rw [← hE]; exact hsuf
      have hrest : rest <:+ w.evs :=
        List.IsSuffix.trans (List.suffix_cons _ _) hevsuf
      cases ev with
      | leaderEv pick res => simp at h
      | actionEv res => simp at h
      | queryEv res =>
        cases res with
        | none =>
          simp only [Option.some.injEq, Prod.mk.injEq] at h
          obtain ⟨h1, h2⟩ := h
          rw [← h2]
          refine ⟨hst, hrest, ?_⟩
          intro info e b hc
          rw [← h1] at hc
          simp at hc
        | some qr =>
          by_cases hS : qr.Success
          · simp only [hS, if_true] at h
            cases hQE : qr.QueryErr with
            | some e0 =>
              rw [hQE] at h
              simp only [Option.some.injEq, Prod.mk.injEq] at h
              obtain ⟨h1, h2⟩ := h
              rw [← h2]
              refine ⟨hst, hrest, ?_⟩
              intro info e b hc
              rw [← h1] at hc
              simp at hc
            | none =>
              rw [hQE] at h
              cases hD : qr.Data with
              | raw v =>
                rw [hD] at h
                simp only [Option.some.injEq, Prod.mk.injEq] at h
                obtain ⟨h1, h2⟩ := h
                rw [← h2]
                refine ⟨hst, hrest, ?_⟩
                intro info e b hc
                rw [← h1] at hc
                simp at hc
              | reqInfo info0 =>
                rw [hD] at h
                simp only [Option.some.injEq, Prod.mk.injEq] at h
                obtain ⟨h1, h2⟩ := h
                rw [← h2]
                refine ⟨hst, hrest, ?_⟩
                intro info e b hc hErr
                rw [← h1] at hc
                simp only [CheckRes.ok.injEq, Option.some.injEq] at hc
                have hinfo : info0 = info := hc.1
                refine traceDomainErrs_suffix _ _ hevsuf e ?_
                rw [traceDomainErrs]
                refine List.mem_append_left _ ?_
                rw [evDomainErrs, hQE, hD, hinfo]
                simp [hErr]
          · dsimp only at h
            rw [if_neg hS] at h
            simp only [Option.some.injEq, Prod.mk.injEq] at h
            obtain ⟨h1, h2⟩ := h
            rw [← h2]
            refine ⟨hst, hrest, ?_⟩
            intro info e b hc
            rw [← h1] at hc
            simp at hc

/-- `logErrAndBackoff` does not touch the trace. -/
theorem logErrAndBackoff_evs (w : W) : (logErrAndBackoff w).evs = w.evs := rfl

/-- `logErrAndBackoff` does not touch the ghost step log. -/
theorem logErrAndBackoff_steps (w : W) : (logErrAndBackoff w).steps = w.steps :=
  rfl

/-- `logErrAndBackoff` always clears the leader cache. -/
theorem logErrAndBackoff_leaderID (w : W) :
    (logErrAndBackoff w).core.leaderID = none := rfl

/-- Reductions for the conditional backoff applications inside the poll
loop body. -/
theorem condBackoff_steps (err : Bool) (w : W) :
    (if err then logErrAndBackoff w else w).steps = w.steps := by
  cases err <;> rfl

/-- Trace part of `condBackoff_steps`. -/
theorem condBackoff_evs (err : Bool) (w : W) :
    (if err then logErrAndBackoff w else w).evs = w.evs := by
  cases err <;> rfl

/-- The unmatched-poll branch applies `logErrAndBackoff` exactly once:
step-log part. -/
theorem condBackoff2_steps (err : Bool) (w : W) :
    (if err then (if err then logErrAndBackoff w else w)
     else logErrAndBackoff (if err then logErrAndBackoff w else w)).steps =
    w.steps := by
  cases err <;> rfl

/-- The unmatched-poll branch applies `logErrAndBackoff` exactly once:
trace part. -/
theorem condBackoff2_evs (err : Bool) (w : W) :
    (if err then (if err then logErrAndBackoff w else w)
     else logErrAndBackoff (if err then logErrAndBackoff w else w)).evs =
    w.evs := by
  cases err <;> rfl

/-- Main inductive lemma about the confirmation poll loop: the trace only
shrinks; a `noMatch` exit appends exactly `r` unmatched ghost polls; a
`found` exit appends fewer than `r` unmatched polls and one matching poll,
and its message is either `action success` (applied) or a domain error
string of the input trace (not applied). -/
theorem innerCheck_props (fuel : Nat) (reqID : String) :
    ∀ (r : Nat) (w : W) (res : InnerRes) (w1 : W),
      innerCheck fuel reqID r w = some (res, w1) →
      w1.evs <:+ w.evs ∧
      (res = InnerRes.noMatch →
        w1.steps = w.steps ++ List.replicate r (Step.polled false)) ∧
      (∀ b msg, res = InnerRes.found b msg →
        (∃ k, k < r ∧ w1.steps =
          w.steps ++ (List.replicate k (Step.polled false) ++ [Step.polled true])) ∧
        ((b = true ∧ msg = "action success") ∨
         (b = false ∧ msg ∈ traceDomainErrs w.evs))) := by
  intro r
  induction r with
  | zero =>
    intro w res w1 h
    rw [innerCheck] at h
    simp only [Option.some.injEq, Prod.mk.injEq] at h
    obtain ⟨h1, h2⟩ := h
    subst h2
    refine ⟨List.suffix_refl _, ?_, ?_⟩
    · intro _; simp
    · intro b msg hf; rw [← h1] at hf; simp at hf
  | succ r ih =>
    intro w res w1 h
    rw [innerCheck] at h
    cases hC : checkActionRequest fuel w with
    | none => rw [hC] at h; simp at h
    | some p =>
      obtain ⟨c, wc⟩ := p
      rw [hC] at h
      obtain ⟨hcst, hcsuf, hcerrs⟩ := checkActionRequest_frame fuel w c wc hC
      cases c with
      | panicked =>
        simp only [Option.some.injEq, Prod.mk.injEq] at h
        obtain ⟨h1, h2⟩ := h
        subst h2
        refine ⟨hcsuf, ?_, ?_⟩
        · intro hn; rw [← h1] at hn; simp at hn
        · intro b msg hf; rw [← h1] at hf; simp at hf
      | ok info err =>
        dsimp only at h
        cases info with
        | some i =>
          dsimp only at h
          by_cases hR : i.RequestID = reqID
          · rw [if_pos hR] at h
            cases hErr : i.Err with
            | some e =>
              rw [hErr] at h
              simp only [Option.some.injEq, Prod.mk.injEq] at h
              obtain ⟨h1, h2⟩ := h
              subst h2
              refine ⟨?_, ?_, ?_⟩
              · simpa [condBackoff_evs] using hcsuf
              · intro hn; rw [← h1] at hn; simp at hn
              · intro b msg hf
                rw [← h1] at hf
                simp only [InnerRes.found.injEq] at hf
                obtain ⟨hb, hmsg⟩ := hf
                constructor
                · exact ⟨0, Nat.succ_pos _, by simp [condBackoff_steps, hcst]⟩
                · right
                  refine ⟨hb.symm, ?_⟩
                  rw [← hmsg]
                  exact hcerrs i e err rfl hErr
            | none =>
              rw [hErr] at h
              simp only [Option.some.injEq, Prod.mk.injEq] at h
              obtain ⟨h1, h2⟩ := h
              subst h2
              refine ⟨?_, ?_, ?_⟩
              · simpa [condBackoff_evs] using hcsuf
              · intro hn; rw [← h1] at hn; simp at hn
              · intro b msg hf
                rw [← h1] at hf
                simp only [InnerRes.found.injEq] at hf
                obtain ⟨hb, hmsg⟩ := hf
                refine ⟨⟨0, Nat.succ_pos _, by simp [condBackoff_steps, hcst]⟩, ?_⟩
                left
                exact ⟨hb.symm, hmsg.symm⟩
          · rw [if_neg hR] at h
            obtain ⟨ihsuf, ihnm, ihf⟩ := ih _ res w1 h
            simp only [condBackoff2_steps, condBackoff2_evs, hcst] at ihsuf ihnm ihf
            refine ⟨ihsuf.trans hcsuf, ?_, ?_⟩
            · intro hn
              rw [ihnm hn]
              simp [List.replicate_succ]
            · intro b msg hf
              obtain ⟨⟨k, hk, hksteps⟩, hmsg⟩ := ihf b msg hf
              constructor
              · refine ⟨k + 1, by omega, ?_⟩
                rw [hksteps]
                simp [List.replicate_succ]
              · rcases hmsg with hok | ⟨hb, hmem⟩
                · exact Or.inl hok
                · exact Or.inr ⟨hb, traceDomainErrs_suffix _ _ hcsuf msg hmem⟩
        | none =>
          dsimp only at h
          obtain ⟨ihsuf, ihnm, ihf⟩ := ih _ res w1 h
          simp only [condBackoff2_steps, condBackoff2_evs, hcst] at ihsuf ihnm ihf
          refine ⟨ihsuf.trans hcsuf, ?_, ?_⟩
          · intro hn
            rw [ihnm hn]
            simp [List.replicate_succ]
          · intro b msg hf
            obtain ⟨⟨k, hk, hksteps⟩, hmsg⟩ := ihf b msg hf
            constructor
            · refine ⟨k + 1, by omega, ?_⟩
              rw [hksteps]
              simp [List.replicate_succ]
            · rcases hmsg with hok | ⟨hb, hmem⟩
              · exact Or.inl hok
              · exact Or.inr ⟨hb, traceDomainErrs_suffix _ _ hcsuf msg hmem⟩

/-- Main inductive lemma about `ExecuteActionRequest`: a completed run
appends a step log of shape `RunLog` for the one `ActionReq` built from
`act` (so every resend is the identical command), and the returned message
is `action success` (applied) or a domain error string of the input trace
(not applied). -/
theorem exec_runlog (fuel : Nat) (act : TSMAction) :
    ∀ (n : Nat) (w : W) (b : Bool) (msg : String) (w1 : W),
      ExecuteActionRequest fuel n act w = some (ExecResult.done b msg, w1) →
      (∃ L, w1.steps = w.steps ++ L ∧ RunLog (ActionReq.mk act) L) ∧
      ((b = true ∧ msg = "action success") ∨
       (b = false ∧ msg ∈ traceDomainErrs w.evs)) := by
  intro n
  induction n with
  | zero =>
    intro w b msg w1 h
    rw [ExecuteActionRequest] at h
    simp at h
  | succ n ih =>
    intro w b msg w1 h
    rw [ExecuteActionRequest] at h
    cases hS : sendActionRequest fuel (ActionReq.mk act) w with
    | none => rw [hS] at h; simp at h
    | some p =>
      obtain ⟨err, ws⟩ := p
      rw [hS] at h
      dsimp only at h
      obtain ⟨hsst, hssuf⟩ :=
        sendActionRequest_frame fuel (ActionReq.mk act) w err ws hS
      by_cases herr : err = true
      · rw [if_pos herr] at h
        obtain ⟨⟨L, hL, hrun⟩, hmsg⟩ := ih _ b msg w1 h
        rw [logErrAndBackoff_steps, hsst, herr] at hL
        constructor
        · refine ⟨Step.sent (ActionReq.mk act) false :: L, ?_, RunLog.failSend L hrun⟩
          rw [hL]
          simp
        · rcases hmsg with hok | ⟨hb, hmem⟩
          · exact Or.inl hok
          · refine Or.inr ⟨hb, ?_⟩
            rw [logErrAndBackoff_evs] at hmem
            exact traceDomainErrs_suffix _ _ hssuf msg hmem
      · rw [if_neg herr] at h
        have herr2 : err = false := by
          cases err
          · rfl
          · exact absurd rfl herr
        rw [herr2] at hsst
        cases hI : innerCheck fuel act.GetRequestID maxCheckCountBeforeRetry
            ({ ws with core := resetBackOffDuration ws.core } : W) with
        | none => rw [hI] at h; simp at h
        | some q =>
          obtain ⟨ir, w3⟩ := q
          rw [hI] at h
          obtain ⟨hisuf, hinm, hif⟩ :=
            innerCheck_props fuel act.GetRequestID maxCheckCountBeforeRetry
              ({ ws with core := resetBackOffDuration ws.core } : W) ir w3 hI
          cases ir with
          | panicked => simp at h
          | found b0 msg0 =>
            simp only [Option.some.injEq, Prod.mk.injEq, ExecResult.done.injEq] at h
            obtain ⟨⟨hb0, hmsg0⟩, hw3⟩ := h
            subst hw3
            obtain ⟨⟨k, hk, hksteps⟩, hm⟩ := hif b0 msg0 rfl
            constructor
            · refine ⟨Step.sent (ActionReq.mk act) true ::
                (List.replicate k (Step.polled false) ++ [Step.polled true]),
                ?_, RunLog.final k hk⟩
              rw [hksteps]
              dsimp only
              rw [hsst]
              simp
            · rcases hm with ⟨hb1, hm1⟩ | ⟨hb1, hmem⟩
              · exact Or.inl ⟨by rw [← hb0, hb1], by rw [← hmsg0, hm1]⟩
              · refine Or.inr ⟨by rw [← hb0, hb1], ?_⟩
                rw [← hmsg0]
                exact traceDomainErrs_suffix _ _ hssuf msg0 hmem
          | noMatch =>
            obtain ⟨⟨L, hL, hrun⟩, hmsg⟩ := ih _ b msg w1 h
            have hw3st := hinm rfl
            constructor
            · refine ⟨Step.sent (ActionReq.mk act) true ::
                (List.replicate maxCheckCountBeforeRetry (Step.polled false) ++ L),
                ?_, RunLog.exhaust L hrun⟩
              rw [hL, hw3st]
              dsimp only
              rw [hsst]
              simp
            · rcases hmsg with hok | ⟨hb, hmem⟩
              · exact Or.inl hok
              · refine Or.inr ⟨hb, ?_⟩
                have : msg ∈ traceDomainErrs ws.evs :=
                  traceDomainErrs_suffix _ _ hisuf msg hmem
                exact traceDomainErrs_suffix _ _ hssuf msg this

/-- Every error returned by `ExecuteQueryRequest` is a query-level error
string of some successful response in the input trace. -/
theorem execQuery_errs (fuel : Nat) :
    ∀ (n : Nat) (w : W) (d : Option QueryData) (e : String) (w1 : W),
      ExecuteQueryRequest fuel n w = some ((d, some e), w1) →
      e ∈ traceDomainErrs w.evs := by
  intro n
  induction n with
  | zero =>
    intro w d e w1 h
    rw [ExecuteQueryRequest] at h
    simp at h
  | succ n ih =>
    intro w d e w1 h
    rw [ExecuteQueryRequest] at h
    cases hLk : lookForLeader fuel w with
    | none => rw [hLk] at h; simp at h
    | some p =>
      obtain ⟨l, wl⟩ := p
      rw [hLk] at h
      dsimp only at h
      obtain ⟨hsuf, _⟩ := lookForLeader_frame fuel w l wl hLk
      cases hE : wl.evs with
      | nil => rw [hE] at h; simp at h
      | cons ev rest =>
        rw [hE] at h
        have hevsuf : ev :: rest <:+ w.evs := by rw [← hE]; exact hsuf
        have hrest : rest <:+ w.evs :=
          List.IsSuffix.trans (List.suffix_cons _ _) hevsuf
        cases ev with
        | leaderEv pick res => simp at h
        | actionEv res => simp at h
        | queryEv res =>
          cases res with
          | none =>
            dsimp only at h
            have := ih _ d e w1 h
            rw [logErrAndBackoff_evs] at this
            exact traceDomainErrs_suffix _ _ hrest e this
          | some qr =>
            dsimp only at h
            by_cases hSc : qr.Success = true
            · rw [if_pos hSc] at h
              cases hQE : qr.QueryErr with
              | none =>
                rw [hQE] at h
                simp at h
              | some e0 =>
                rw [hQE] at h
                simp only [Option.some.injEq, Prod.mk.injEq] at h
                obtain ⟨⟨_, he⟩, _⟩ := h
                refine traceDomainErrs_suffix _ _ hevsuf e ?_
                rw [traceDomainErrs]
                refine List.mem_append_left _ ?_
                rw [evDomainErrs, hQE]
                simp [he]
            · rw [if_neg hSc] at h
              have := ih _ d e w1 h
              rw [logErrAndBackoff_evs] at this
              exact traceDomainErrs_suffix _ _ hrest e this

/-- Backoff bounds hold at every reachable core. -/
theorem reachable_backoff_bounds (c : ClientCore) (h : ReachableCore c) :
    initBackOffDuration ≤ c.backOffDuration ∧
    c.backOffDuration ≤ maxBackOffDuration := by
  induction h with
  | init cid nl =>
    constructor <;>
      simp [NewClientCore, initBackOffDuration, maxBackOffDuration]
  | reset c hc ih =>
    constructor <;>
      simp [resetBackOffDuration, initBackOffDuration, maxBackOffDuration]
  | fail c hc ih =>
    have h1 := ih.1
    have h2 := ih.2
    simp only [coreBackoff, initBackOffDuration, maxBackOffDuration] at h1 h2 ⊢
    omega

/-- One capped doubling step on the closed form. -/
theorem backoff_min_double (n : Nat) :
    min maxBackOffDuration (min (initBackOffDuration * 2 ^ n) maxBackOffDuration * 2) =
    min (initBackOffDuration * 2 ^ (n + 1)) maxBackOffDuration := by
  simp only [initBackOffDuration, maxBackOffDuration, pow_succ]
  omega

/-- Closed form of the backoff after `n` consecutive failures from
construction. -/
theorem coreAfterFails_closed (clientID : String) (nodeIDs : List NodeID) :
    ∀ n, (coreAfterFails (NewClientCore clientID nodeIDs) n).backOffDuration =
      min (initBackOffDuration * 2 ^ n) maxBackOffDuration := by
  intro n
  induction n with
  | zero =>
    simp only [coreAfterFails, NewClientCore, pow_zero, mul_one,
      initBackOffDuration, maxBackOffDuration]
    omega
  | succ n ih =>
    rw [coreAfterFails]
    simp only [coreBackoff]
    rw [ih]
    exact backoff_min_double n

/-- Step equation: discovery succeeds when the probed member names a
leader — it is cached, the backoff is reset, the leader returned. -/
theorem lookForLeader_success_eq (fuel : Nat) (w : W) (pick : NodeID)
    (lr : LeaderRes) (rest : List Ev)
    (hL : w.core.leaderID = none)
    (hE : w.evs = Ev.leaderEv pick (some lr) :: rest)
    (hHas : lr.HasLeader = true) :
    lookForLeader (fuel + 1) w = some (lr.LeaderID,
      { w with
        core := resetBackOffDuration
          ({ w.core with leaderID := some lr.LeaderID })
        evs := rest
        leaderRPCs := w.leaderRPCs + 1 }) := by
  rw [lookForLeader, hL, hE]
  simp [hHas]

/-- Step equation: a leaderless reply triggers backoff and retry. -/
theorem lookForLeader_noLeader_eq (fuel : Nat) (w : W) (pick : NodeID)
    (lr : LeaderRes) (rest : List Ev)
    (hL : w.core.leaderID = none)
    (hE : w.evs = Ev.leaderEv pick (some lr) :: rest)
    (hHas : lr.HasLeader = false) :
    lookForLeader (fuel + 1) w = lookForLeader fuel
      (logErrAndBackoff { w with evs := rest, leaderRPCs := w.leaderRPCs + 1 }) := by
  rw [lookForLeader, hL, hE]
  simp [hHas]

/-- Step equation: a transport error during discovery triggers backoff and
retry. -/
theorem lookForLeader_transport_eq (fuel : Nat) (w : W) (pick : NodeID)
    (rest : List Ev)
    (hL : w.core.leaderID = none)
    (hE : w.evs = Ev.leaderEv pick none :: rest) :
    lookForLeader (fuel + 1) w = lookForLeader fuel
      (logErrAndBackoff { w with evs := rest, leaderRPCs := w.leaderRPCs + 1 }) := by
  rw [lookForLeader, hL, hE]

/-- Step equation: a successful poll whose response carries a query error
returns `(nil, nil)` — no info, no error, error text discarded. -/
theorem check_noInfo_eq (fuel : Nat) (w : W) (l : NodeID) (wl : W)
    (qr : QueryRes) (rest : List Ev)
    (hLk : lookForLeader fuel w = some (l, wl))
    (hE : wl.evs = Ev.queryEv (some qr) :: rest)
    (hS : qr.Success = true) (hQE : qr.QueryErr.isSome = true) :
    checkActionRequest fuel w =
      some (CheckRes.ok none false, { wl with evs := rest }) := by
  rw [checkActionRequest, hLk]
  dsimp only
  rw [hE]
  dsimp only
  rw [if_pos hS]
  cases hq : qr.QueryErr with
  | none => rw [hq] at hQE; simp at hQE
  | some e => rfl

/-- Step equation: a poll that produced no `RequestInfo` and no RPC error
consumes one attempt, clears the leader cache and doubles the backoff
(`info is nil or wrong request ID`). -/
theorem innerCheck_noInfo_step_eq (fuel : Nat) (reqID : String) (r : Nat)
    (w : W) (w2 : W)
    (hC : checkActionRequest fuel w = some (CheckRes.ok none false, w2)) :
    innerCheck fuel reqID (r + 1) w = innerCheck fuel reqID r
      ({ logErrAndBackoff w2 with
         steps := (logErrAndBackoff w2).steps ++ [Step.polled false] }) := by
  rw [innerCheck, hC]
  rfl

/-- Step equation: a poll whose `RequestInfo` has the wrong RequestID
consumes one attempt, clears the leader cache and doubles the backoff. -/
theorem innerCheck_mismatch_step_eq (fuel : Nat) (reqID : String) (r : Nat)
    (w : W) (info : TSMRequestInfo) (w2 : W)
    (hC : checkActionRequest fuel w = some (CheckRes.ok (some info) false, w2))
    (hne : info.RequestID ≠ reqID) :
    innerCheck fuel reqID (r + 1) w = innerCheck fuel reqID r
      ({ logErrAndBackoff w2 with
         steps := (logErrAndBackoff w2).steps ++ [Step.polled false] }) := by
  rw [innerCheck, hC]
  dsimp only
  rw [if_neg hne]
  rfl

/-- Step equation: a poll whose `RequestInfo` matches the submitted
RequestID ends the poll loop at once with the definitive outcome, resetting
the backoff to the floor; no further event is consumed. -/
theorem innerCheck_matched_eq (fuel : Nat) (reqID : String) (r : Nat)
    (w : W) (info : TSMRequestInfo) (w2 : W)
    (hC : checkActionRequest fuel w = some (CheckRes.ok (some info) false, w2))
    (hmatch : info.RequestID = reqID) :
    innerCheck fuel reqID (r + 1) w = some
      ((match info.Err with
        | some e => InnerRes.found false e
        | none => InnerRes.found true "action success"),
       { w2 with
         core := resetBackOffDuration w2.core
         steps := w2.steps ++ [Step.polled true] }) := by
  rw [innerCheck, hC]
  dsimp only
  rw [if_pos hmatch]
  cases hErr : info.Err with
  | some e => rfl
  | none => rfl

/-- Step equation: when the send is accepted and the poll loop finds the
definitive outcome, `ExecuteActionRequest` returns it. -/
theorem exec_found_eq (fuel n : Nat) (act : TSMAction) (w ws : W)
    (b : Bool) (msg : String) (wf : W)
    (hS : sendActionRequest fuel (ActionReq.mk act) w = some (false, ws))
    (hI : innerCheck fuel act.GetRequestID maxCheckCountBeforeRetry
      ({ ws with core := resetBackOffDuration ws.core }) =
        some (InnerRes.found b msg, wf)) :
    ExecuteActionRequest fuel (n + 1) act w =
      some (ExecResult.done b msg, wf) := by
  rw [ExecuteActionRequest, hS]
  dsimp only
  rw [hI]
  rfl

/-- Step equation: a successful query response is returned at once —
`(Data, nil)` or `(nil, QueryErr)` — with the backoff reset to the floor
and no further event consumed. -/
theorem execQuery_success_eq (fuel n : Nat) (w : W) (l : NodeID) (wl : W)
    (qr : QueryRes) (rest : List Ev)
    (hLk : lookForLeader fuel w = some (l, wl))
    (hE : wl.evs = Ev.queryEv (some qr) :: rest)
    (hS : qr.Success = true) :
    ExecuteQueryRequest fuel (n + 1) w = some
      ((match qr.QueryErr with
        | none => (some qr.Data, none)
        | some e => (none, some e)),
       { wl with
         core := resetBackOffDuration wl.core
         evs := rest }) := by
  rw [ExecuteQueryRequest, hLk]
  dsimp only
  rw [hE]
  dsimp only
  rw [if_pos hS]
  cases hq : qr.QueryErr with
  | none => rfl
  | some e => rfl

/-- On a trace whose successful error-free query replies all carry
`TSMRequestInfo` payloads, `checkActionRequest` cannot panic. -/
theorem check_wellTyped_no_panic (fuel : Nat) (w : W) (c : CheckRes) (w1 : W)
    (hw : w.evs.all evWellTyped = true)
    (h : checkActionRequest fuel w = some (c, w1)) :
    c ≠ CheckRes.panicked := by
  rw [checkActionRequest] at h
  cases hLk : lookForLeader fuel w with
  | none => rw [hLk] at h; simp at h
  | some p =>
    obtain ⟨l, wl⟩ := p
    rw [hLk] at h
    dsimp only at h
    obtain ⟨hsuf, _⟩ := lookForLeader_frame fuel w l wl hLk
    cases hE : wl.evs with
    | nil => rw [hE] at h; simp at h
    | cons ev rest =>
      rw [hE] at h
      have hevsuf : ev :: rest <:+ w.evs := by rw [← hE]; exact hsuf
      have hwl : (ev :: rest).all evWellTyped = true :=
        wellTyped_suffix _ _ hevsuf hw
      have hev : evWellTyped ev = true := by
        rw [List.all_cons] at hwl
        exact (Bool.and_eq_true_iff.mp hwl).1
      cases ev with
      | leaderEv pick res => simp at h
      | actionEv res => simp at h
      | queryEv res =>
        cases res with
        | none =>
          simp only [Option.some.injEq, Prod.mk.injEq] at h
          rw [← h.1]
          simp
        | some qr =>
          dsimp only at h
          by_cases hS : qr.Success = true
          · rw [if_pos hS] at h
            cases hq : qr.QueryErr with
            | some e =>
              rw [hq] at h
              simp only [Option.some.injEq, Prod.mk.injEq] at h
              rw [← h.1]
              simp
            | none =>
              rw [hq] at h
              cases hD : qr.Data with
              | reqInfo info =>
                rw [hD] at h
                simp only [Option.some.injEq, Prod.mk.injEq] at h
                rw [← h.1]
                simp
              | raw v =>
                rw [hD] at h
                simp only [evWellTyped, hS, hq, hD, if_true] at hev
                simp at hev
          · rw [if_neg hS] at h
            simp only [Option.some.injEq, Prod.mk.injEq] at h
            rw [← h.1]
            simp

/-- A successful discovery resets the backoff to the floor unless it was
served from the cache (in which case the world is untouched). -/
theorem lookForLeader_reset (fuel : Nat) :
    ∀ (w : W) (l : NodeID) (w1 : W),
      lookForLeader fuel w = some (l, w1) →
      (w.core.leaderID = some l ∧ w1 = w) ∨
      w1.core.backOffDuration = initBackOffDuration := by
  induction fuel with
  | zero => intro w l w1 h; simp [lookForLeader] at h
  | succ n ih =>
    intro w l w1 h
    rw [lookForLeader] at h
    cases hL : w.core.leaderID with
    | some l0 =>
      rw [hL] at h
      simp only [Option.some.injEq, Prod.mk.injEq] at h
      exact Or.inl ⟨by rw [h.1], h.2.symm⟩
    | none =>
      rw [hL] at h
      cases hE : w.evs with
      | nil => rw [hE] at h; simp at h
      | cons ev rest =>
        rw [hE] at h
        cases ev with
        | leaderEv pick res =>
          cases res with
          | none =>
            rcases ih _ _ _ h with ⟨hc, _⟩ | hreset
            · simp [logErrAndBackoff_leaderID] at hc
            · exact Or.inr hreset
          | some lr =>
            by_cases hHL : lr.HasLeader
            · simp only [hHL, if_true] at h
              simp only [Option.some.injEq, Prod.mk.injEq] at h
              refine Or.inr ?_
              rw [← h.2]
              rfl
            · simp only [hHL, if_false] at h
              rcases ih _ _ _ h with ⟨hc, _⟩ | hreset
              · simp [logErrAndBackoff_leaderID] at hc
              · exact Or.inr hreset
        | actionEv res => simp at h
        | queryEv res => simp at h

/-- Unfolding of `ExecuteActionRequest` after an accepted send: the backoff
is reset to the floor before the poll loop starts. -/
theorem exec_send_ok_eq (fuel n : Nat) (act : TSMAction) (w ws : W)
    (hS : sendActionRequest fuel (ActionReq.mk act) w = some (false, ws)) :
    ExecuteActionRequest fuel (n + 1) act w =
      (match innerCheck fuel act.GetRequestID maxCheckCountBeforeRetry
        ({ ws with core := resetBackOffDuration ws.core }) with
      | none => none
      | some (InnerRes.panicked, w3) => some (ExecResult.panicked, w3)
      | some (InnerRes.found b msg, w3) => some (ExecResult.done b msg, w3)
      | some (InnerRes.noMatch, w3) => ExecuteActionRequest fuel n act w3) := by
  rw [ExecuteActionRequest, hS]
  rfl

/-! ## Claims -/

/-- C1: in every completed `ExecuteActionRequest` run, an accepted send is
followed by exactly `maxCheckCountBeforeRetry` (6) unmatched poll attempts
(each poll — failed RPC, absent info or mismatched RequestID — consuming one
attempt) before the `ActionRequest` is sent again, not before and not after;
the final accepted send sees fewer than 6 unmatched polls and one matching
poll; and every resend carries the identical `ActionReq` (hence the same
RequestID).  This is the `RunLog` grammar of the ghost step log. -/
theorem C1_exact_poll_budget_and_identical_resend
    (fuel n : Nat) (act : TSMAction) (w : W) (b : Bool) (msg : String)
    (w1 : W) (hsteps : w.steps = [])
    (h : ExecuteActionRequest fuel n act w = some (ExecResult.done b msg, w1)) :
    RunLog (ActionReq.mk act) w1.steps := by
  obtain ⟨⟨L, hL, hrun⟩, _⟩ := exec_runlog fuel act n w b msg w1 h
  rw [hL, hsteps]
  simpa using hrun

/-- Witness for C1 on a run with one exhausted poll round and a resend. -/
theorem C1_witness : RunLog (ActionReq.mk actR1) wExhaustFinal.steps :=
  C1_exact_poll_budget_and_identical_resend 5 3 actR1
    (mkW coreCached evsExhaust) true "action success" wExhaustFinal rfl rfl

/-- C2: a confirmation poll returning a `RequestInfo` whose RequestID equals
the submitted command's RequestID ends `ExecuteActionRequest` immediately
with the definitive outcome — `(false, that error string)` when
`RequestInfo.Err` is set, `(true, "action success")` otherwise — and the
backoff is reset to the floor before returning. -/
theorem C2_matched_poll_definitive :
    (∀ fuel reqID r (w : W) info w2,
      checkActionRequest fuel w = some (CheckRes.ok (some info) false, w2) →
      info.RequestID = reqID →
      innerCheck fuel reqID (r + 1) w = some
        ((match info.Err with
          | some e => InnerRes.found false e
          | none => InnerRes.found true "action success"),
         { w2 with
           core := resetBackOffDuration w2.core
           steps := w2.steps ++ [Step.polled true] })) ∧
    (∀ c, (resetBackOffDuration c).backOffDuration = initBackOffDuration) ∧
    (∀ fuel n act (w : W) ws b msg wf,
      sendActionRequest fuel (ActionReq.mk act) w = some (false, ws) →
      innerCheck fuel act.GetRequestID maxCheckCountBeforeRetry
        ({ ws with core := resetBackOffDuration ws.core }) =
          some (InnerRes.found b msg, wf) →
      ExecuteActionRequest fuel (n + 1) act w =
        some (ExecResult.done b msg, wf)) :=
  ⟨innerCheck_matched_eq, fun _ => rfl, exec_found_eq⟩

/-- Witness for C2 on a matching first poll. -/
theorem C2_witness :
    innerCheck 1 "r1" 1 (mkW coreCached [Ev.queryEv (some qrMatchOK)]) = some
      (InnerRes.found true "action success",
       { core := resetBackOffDuration coreCached, evs := [], sleeps := [],
         steps := [Step.polled true], leaderRPCs := 0 }) :=
  C2_matched_poll_definitive.1 1 "r1" 0
    (mkW coreCached [Ev.queryEv (some qrMatchOK)])
    { RequestID := "r1", Err := none } (mkW coreCached []) rfl rfl

/-- C3 counterexample: a complete `ExecuteActionRequest` run on a trace in
which every reply is a success (no transport error, no decline, no
leaderless answer), starting with the leader cached — yet the client issues
6 leader-discovery RPCs, because each successful poll without a matching
`RequestInfo` cleared the cache.  The claim says the cache transitions to
Unknown only on a transport error or decline, so it would predict 0. -/
theorem C3_counterexample :
    List.all evsExhaust evNoFailure = true ∧
    (mkW coreCached evsExhaust).core.leaderID = some "n1" ∧
    ExecuteActionRequest 5 3 actR1 (mkW coreCached evsExhaust) =
      some (ExecResult.done true "action success", wExhaustFinal) ∧
    wExhaustFinal.leaderRPCs = 6 :=
  ⟨by decide, rfl, by decide, rfl⟩

/-- C3 (amended): the cached leader is used without a discovery RPC while
set, and transitions to Unknown whenever `logErrAndBackoff` runs — on a
transport error or decline, and also whenever a confirmation poll RPC
succeeds but returns an absent or mismatched `RequestInfo`. -/
theorem C3_amended_cache_transitions :
    (∀ fuel (w : W) l, w.core.leaderID = some l →
      lookForLeader (fuel + 1) w = some (l, w)) ∧
    (∀ w : W, (logErrAndBackoff w).core.leaderID = none) ∧
    (∀ fuel reqID r (w : W) w2,
      checkActionRequest fuel w = some (CheckRes.ok none false, w2) →
      innerCheck fuel reqID (r + 1) w = innerCheck fuel reqID r
        ({ logErrAndBackoff w2 with
           steps := (logErrAndBackoff w2).steps ++ [Step.polled false] })) ∧
    (∀ fuel reqID r (w : W) info w2,
      checkActionRequest fuel w = some (CheckRes.ok (some info) false, w2) →
      info.RequestID ≠ reqID →
      innerCheck fuel reqID (r + 1) w = innerCheck fuel reqID r
        ({ logErrAndBackoff w2 with
           steps := (logErrAndBackoff w2).steps ++ [Step.polled false] })) :=
  ⟨lookForLeader_cached, logErrAndBackoff_leaderID,
   innerCheck_noInfo_step_eq, innerCheck_mismatch_step_eq⟩

/-- Witness for C3 (amended): the cached leader answers with no RPC, and the
error/backoff handler clears the cache. -/
theorem C3_witness :
    lookForLeader 4 (mkW coreCached []) = some ("n1", mkW coreCached []) ∧
    (logErrAndBackoff (mkW coreCached [])).core.leaderID = none :=
  ⟨C3_amended_cache_transitions.1 3 (mkW coreCached []) "n1" rfl,
   C3_amended_cache_transitions.2.1 (mkW coreCached [])⟩

/-- C4 counterexample: a confirmation poll RPC completes successfully but
without a matching `RequestInfo`; the backoff is then 40, twice the floor,
not reset to the floor — visible both in the poll-loop step and in the
sleeps of a completed run, whose second sleep lasts 40. -/
theorem C4_counterexample :
    innerCheck 1 "r1" 1 (mkW coreCached [Ev.queryEv (some qrNoInfo)]) =
      some (InnerRes.noMatch, wNoInfoFinal) ∧
    wNoInfoFinal.core.backOffDuration = 40 ∧
    ¬ wNoInfoFinal.core.backOffDuration = initBackOffDuration ∧
    ExecuteActionRequest 5 3 actR1 (mkW coreCached evsSleep40) =
      some (ExecResult.done true "action success", wSleep40Final) ∧
    wSleep40Final.sleeps = [20, 40] :=
  ⟨by decide, rfl, by decide, by decide, rfl⟩

/-- C4 (amended): the backoff is reset to the floor on a successful leader
discovery (unless served from the cache), after an accepted action send
(before the poll loop starts), on a confirmation poll whose `RequestInfo`
matches, and on a successful query; every `logErrAndBackoff` — failed RPC,
decline, leaderless reply, or successful poll without a matching
`RequestInfo` — doubles it, capped at the ceiling. -/
theorem C4_amended_backoff_rules :
    (∀ c, (resetBackOffDuration c).backOffDuration = initBackOffDuration) ∧
    (∀ w : W, (logErrAndBackoff w).core.backOffDuration =
      min maxBackOffDuration (w.core.backOffDuration * 2)) ∧
    (∀ fuel (w : W) l w1, lookForLeader fuel w = some (l, w1) →
      (w.core.leaderID = some l ∧ w1 = w) ∨
      w1.core.backOffDuration = initBackOffDuration) ∧
    (∀ fuel n act (w ws : W),
      sendActionRequest fuel (ActionReq.mk act) w = some (false, ws) →
      ExecuteActionRequest fuel (n + 1) act w =
        (match innerCheck fuel act.GetRequestID maxCheckCountBeforeRetry
          ({ ws with core := resetBackOffDuration ws.core }) with
        | none => none
        | some (InnerRes.panicked, w3) => some (ExecResult.panicked, w3)
        | some (InnerRes.found b msg, w3) => some (ExecResult.done b msg, w3)
        | some (InnerRes.noMatch, w3) => ExecuteActionRequest fuel n act w3)) ∧
    (∀ fuel reqID r (w : W) info w2,
      checkActionRequest fuel w = some (CheckRes.ok (some info) false, w2) →
      info.RequestID = reqID →
      innerCheck fuel reqID (r + 1) w = some
        ((match info.Err with
          | some e => InnerRes.found false e
          | none => InnerRes.found true "action success"),
         { w2 with
           core := resetBackOffDuration w2.core
           steps := w2.steps ++ [Step.polled true] })) ∧
    (∀ fuel n (w : W) l wl qr rest,
      lookForLeader fuel w = some (l, wl) →
      wl.evs = Ev.queryEv (some qr) :: rest →
      qr.Success = true →
      ExecuteQueryRequest fuel (n + 1) w = some
        ((match qr.QueryErr with
          | none => (some qr.Data, none)
          | some e => (none, some e)),
         { wl with
           core := resetBackOffDuration wl.core
           evs := rest })) ∧
    (∀ fuel reqID r (w : W) w2,
      checkActionRequest fuel w = some (CheckRes.ok none false, w2) →
      innerCheck fuel reqID (r + 1) w = innerCheck fuel reqID r
        ({ logErrAndBackoff w2 with
           steps := (logErrAndBackoff w2).steps ++ [Step.polled false] }) ∧
      (logErrAndBackoff w2).core.backOffDuration =
        min maxBackOffDuration (w2.core.backOffDuration * 2)) :=
  ⟨fun _ => rfl, fun _ => rfl, lookForLeader_reset, exec_send_ok_eq,
   innerCheck_matched_eq, execQuery_success_eq,
   fun fuel reqID r w w2 hC =>
     ⟨innerCheck_noInfo_step_eq fuel reqID r w w2 hC, rfl⟩⟩

/-- Witness for C4 (amended): the doubling rule at a concrete world. -/
theorem C4_witness :
    (logErrAndBackoff (mkW coreCached [])).core.backOffDuration =
      min maxBackOffDuration ((mkW coreCached []).core.backOffDuration * 2) ∧
    (resetBackOffDuration coreCached).backOffDuration = initBackOffDuration :=
  ⟨C4_amended_backoff_rules.2.1 (mkW coreCached []),
   C4_amended_backoff_rules.1 coreCached⟩

/-- C5: from construction, along any sequence of reset and backoff
operations, `floor ≤ backOffDuration ≤ ceiling` (20 ≤ b ≤ 1600); reset sets
it to exactly the floor; each failure step first sleeps the current duration
and then sets it to `min (current * 2) ceiling`; and after `n` consecutive
failures from construction it equals `min (20 * 2 ^ n) 1600`. -/
theorem C5_backoff_invariant :
    (∀ c, ReachableCore c →
      initBackOffDuration ≤ c.backOffDuration ∧
      c.backOffDuration ≤ maxBackOffDuration) ∧
    (∀ c, (resetBackOffDuration c).backOffDuration = initBackOffDuration) ∧
    (∀ w : W, (logErrAndBackoff w).sleeps = w.sleeps ++ [w.core.backOffDuration] ∧
      (logErrAndBackoff w).core.backOffDuration =
        min maxBackOffDuration (w.core.backOffDuration * 2)) ∧
    (∀ (clientID : String) (nodeIDs : List NodeID) (n : Nat),
      (coreAfterFails (NewClientCore clientID nodeIDs) n).backOffDuration =
        min (initBackOffDuration * 2 ^ n) maxBackOffDuration) :=
  ⟨reachable_backoff_bounds, fun _ => rfl, fun _ => ⟨rfl, rfl⟩,
   coreAfterFails_closed⟩

/-- Witness for C5 at a concrete reachable core and at 7 consecutive
failures (where the cap bites: `min (20 * 2 ^ 7) 1600 = 1600`). -/
theorem C5_witness :
    (initBackOffDuration ≤
      (coreBackoff (NewClientCore "c1" ["n1", "n2"])).backOffDuration ∧
     (coreBackoff (NewClientCore "c1" ["n1", "n2"])).backOffDuration ≤
      maxBackOffDuration) ∧
    (coreAfterFails (NewClientCore "c1" ["n1", "n2"]) 7).backOffDuration =
      min (initBackOffDuration * 2 ^ 7) maxBackOffDuration :=
  ⟨C5_backoff_invariant.1 _
     (ReachableCore.fail _ (ReachableCore.init "c1" ["n1", "n2"])),
   C5_backoff_invariant.2.2.2 "c1" ["n1", "n2"] 7⟩

/-- C6: with a cached leader, `lookForLeader` returns it immediately with no
RPC; with no cached leader it probes the member the random pick selected:
on a reply naming a leader it caches it, resets the backoff to the floor and
returns it; on a leaderless reply or a transport error it backs off and
retries; and whenever it returns, the returned node is the cached leader. -/
theorem C6_lookForLeader_contract :
    (∀ fuel (w : W) l, w.core.leaderID = some l →
      lookForLeader (fuel + 1) w = some (l, w)) ∧
    (∀ fuel (w : W) pick lr rest, w.core.leaderID = none →
      w.evs = Ev.leaderEv pick (some lr) :: rest → lr.HasLeader = true →
      lookForLeader (fuel + 1) w = some (lr.LeaderID,
        { w with
          core := resetBackOffDuration
            ({ w.core with leaderID := some lr.LeaderID })
          evs := rest
          leaderRPCs := w.leaderRPCs + 1 })) ∧
    (∀ fuel (w : W) pick lr rest, w.core.leaderID = none →
      w.evs = Ev.leaderEv pick (some lr) :: rest → lr.HasLeader = false →
      lookForLeader (fuel + 1) w = lookForLeader fuel
        (logErrAndBackoff
          { w with evs := rest, leaderRPCs := w.leaderRPCs + 1 })) ∧
    (∀ fuel (w : W) pick rest, w.core.leaderID = none →
      w.evs = Ev.leaderEv pick none :: rest →
      lookForLeader (fuel + 1) w = lookForLeader fuel
        (logErrAndBackoff
          { w with evs := rest, leaderRPCs := w.leaderRPCs + 1 })) ∧
    (∀ fuel (w : W) l w1, lookForLeader fuel w = some (l, w1) →
      w1.core.leaderID = some l) :=
  ⟨lookForLeader_cached, lookForLeader_success_eq, lookForLeader_noLeader_eq,
   lookForLeader_transport_eq, lookForLeader_leaderSet⟩

/-- Witness for C6: a fresh (uncached) core discovers leader `n1` from one
successful probe, caching it, resetting the backoff and counting one
discovery RPC. -/
theorem C6_witness :
    lookForLeader 2 (mkW (NewClientCore "c1" ["n1", "n2"]) [evLeaderN1]) =
      some ("n1",
        { core := { clientID := "c1", leaderID := some "n1",
                    nl := ["n1", "n2"], backOffDuration := 20 },
          evs := [], sleeps := [], steps := [], leaderRPCs := 1 }) :=
  C6_lookForLeader_contract.2.1 1
    (mkW (NewClientCore "c1" ["n1", "n2"]) [evLeaderN1]) "n2"
    { HasLeader := true, LeaderID := "n1" } [] rfl rfl rfl

/-- C7: on a successful query response `ExecuteQueryRequest` returns at
once — `(nil, that query error)` when the response carries one, otherwise
`(Data, nil)` — consuming no further event, with the backoff reset to the
floor in both cases. -/
theorem C7_query_success_definitive :
    (∀ fuel n (w : W) l wl qr rest,
      lookForLeader fuel w = some (l, wl) →
      wl.evs = Ev.queryEv (some qr) :: rest →
      qr.Success = true →
      ExecuteQueryRequest fuel (n + 1) w = some
        ((match qr.QueryErr with
          | none => (some qr.Data, none)
          | some e => (none, some e)),
         { wl with
           core := resetBackOffDuration wl.core
           evs := rest })) ∧
    (∀ c, (resetBackOffDuration c).backOffDuration = initBackOffDuration) :=
  ⟨execQuery_success_eq, fun _ => rfl⟩

/-- Witness for C7 on a successful response carrying a domain error. -/
theorem C7_witness :
    ExecuteQueryRequest 1 1 (mkW coreCached [Ev.queryEv (some qrKeyMissing)]) =
      some ((none, some "key not found"),
        { core := resetBackOffDuration coreCached, evs := [], sleeps := [],
          steps := [], leaderRPCs := 0 }) :=
  C7_query_success_definitive.1 1 0
    (mkW coreCached [Ev.queryEv (some qrKeyMissing)]) "n1"
    (mkW coreCached [Ev.queryEv (some qrKeyMissing)]) qrKeyMissing []
    rfl rfl rfl

/-- C8: the protocols never surface a transport error or decline: whenever
`ExecuteActionRequest` returns, its message is `action success` (applied) or
a domain error string taken from a response payload in the trace; whenever
`ExecuteQueryRequest` returns an error, the string is a query-level error of
a successful response in the trace.  Transport errors carry no payload in
the model, so neither result can originate from one. -/
theorem C8_no_transport_errors_surfaced :
    (∀ fuel n act (w : W) b msg w1,
      ExecuteActionRequest fuel n act w = some (ExecResult.done b msg, w1) →
      (b = true ∧ msg = "action success") ∨
      (b = false ∧ msg ∈ traceDomainErrs w.evs)) ∧
    (∀ fuel n (w : W) d e w1,
      ExecuteQueryRequest fuel n w = some ((d, some e), w1) →
      e ∈ traceDomainErrs w.evs) :=
  ⟨fun fuel n act w b msg w1 h => (exec_runlog fuel act n w b msg w1 h).2,
   fun fuel n w d e w1 h => execQuery_errs fuel n w d e w1 h⟩

/-- Witness for C8 on a run whose action is rejected by the state machine:
the surfaced message is the domain error from the trace. -/
theorem C8_witness :
    (false = true ∧ "insufficient funds" = "action success") ∨
    (false = false ∧ "insufficient funds" ∈
      traceDomainErrs (mkW coreCached
        [evActionOK, Ev.queryEv (some qrMatchErr)]).evs) :=
  C8_no_transport_errors_surfaced.1 2 2 actR1
    (mkW coreCached [evActionOK, Ev.queryEv (some qrMatchErr)])
    false "insufficient funds"
    { core := { clientID := "c1", leaderID := some "n1",
                nl := ["n1", "n2", "n3"], backOffDuration := 20 },
      evs := [], sleeps := [],
      steps := [Step.sent (ActionReq.mk actR1) true, Step.polled true],
      leaderRPCs := 0 }
    (by decide)

/-- C9: a confirmation poll whose response is successful but carries a
query-level error returns `(nil, nil)` — the error text is discarded, no
error is reported — and the poll then counts as one unmatched attempt of the
poll loop (invoking the `info is nil or wrong request ID` backoff). -/
theorem C9_queryErr_treated_as_no_info :
    (∀ fuel (w : W) l wl qr rest,
      lookForLeader fuel w = some (l, wl) →
      wl.evs = Ev.queryEv (some qr) :: rest →
      qr.Success = true → qr.QueryErr.isSome = true →
      checkActionRequest fuel w =
        some (CheckRes.ok none false, { wl with evs := rest })) ∧
    (∀ fuel reqID r (w : W) w2,
      checkActionRequest fuel w = some (CheckRes.ok none false, w2) →
      innerCheck fuel reqID (r + 1) w = innerCheck fuel reqID r
        ({ logErrAndBackoff w2 with
           steps := (logErrAndBackoff w2).steps ++ [Step.polled false] })) :=
  ⟨check_noInfo_eq, innerCheck_noInfo_step_eq⟩

/-- Witness for C9 on a successful poll reply carrying a query error. -/
theorem C9_witness :
    checkActionRequest 1 (mkW coreCached [Ev.queryEv (some qrNoInfo)]) =
      some (CheckRes.ok none false,
        { core := coreCached, evs := [], sleeps := [], steps := [],
          leaderRPCs := 0 }) :=
  C9_queryErr_treated_as_no_info.1 1
    (mkW coreCached [Ev.queryEv (some qrNoInfo)]) "n1"
    (mkW coreCached [Ev.queryEv (some qrNoInfo)]) qrNoInfo []
    rfl rfl rfl rfl

/-- C10: `checkActionRequest` performs an unchecked type assertion on the
payload of a successful, error-free query response: when every such response
in the trace carries a `TSMRequestInfo`, the panic branch is unreachable;
on a response whose payload has any other type, the function panics instead
of returning an error. -/
theorem C10_unchecked_type_assertion :
    (∀ fuel (w : W) c w1,
      List.all w.evs evWellTyped = true →
      checkActionRequest fuel w = some (c, w1) →
      c ≠ CheckRes.panicked) ∧
    checkActionRequest 1 (mkW coreCached [Ev.queryEv (some qrBadData)]) =
      some (CheckRes.panicked, mkW coreCached []) :=
  ⟨check_wellTyped_no_panic, rfl⟩

/-- Witness for C10 on a well-typed trace. -/
theorem C10_witness :
    CheckRes.ok (some { RequestID := "r1", Err := none }) false ≠
      CheckRes.panicked :=
  C10_unchecked_type_assertion.1 1
    (mkW coreCached [Ev.queryEv (some qrMatchOK)])
    (CheckRes.ok (some { RequestID := "r1", Err := none }) false)
    (mkW coreCached []) (by decide) rfl

end RaftLite
